import Mathlib

/-
Verification of the transactional-task-mutator / retry-executor core of the
task-management service.  The definitions below are a shallow embedding of
the TypeScript source: the generic retry wrapper, the BullMQ queue adapter,
and the transactional operations of TasksService (create, update,
bulkUpdateStatus, bulkDelete, getOverdueTasks).  Failures of the external
collaborators (store save, db write, commit, queue add) are supplied by an
explicit environment, and each operation returns its outcome together with
the resulting store and the list of observable events it performed, in
order.
-/

namespace TaskApp

/-! ## The retry wrapper (src: common/utils/retry.ts) -/

/-- Options of the retry wrapper; defaults from the source are
attempts 5, delayMs 1000, factor 2, shouldRetry always true. -/
structure RetryOptions (ε : Type) where
  attempts : Nat
  delayMs : Nat
  factor : Nat
  shouldRetry : ε → Bool

def defaultRetryOptions {ε : Type} : RetryOptions ε :=
  ⟨5, 1000, 2, fun _ => true⟩

/-- Observable outcome of a retry run: the settled result (error none is
the undefined lastError when the loop body never ran), the number of
invocations of the wrapped operation, and the backoff delays slept. -/
structure RetryTrace (ε α : Type) where
  result : Except (Option ε) α
  calls : Nat
  delays : List Nat

/-- One pass of the source loop, starting at the given attempt index with
the given remaining fuel (the entry point supplies fuel = attempts, so an
in-range call always has fuel ≥ 1).  The operation is modelled by the
outcome of its k-th invocation. -/
def retryGo {ε α : Type} (fn : Nat → Except ε α) (o : RetryOptions ε) :
    Nat → Nat → RetryTrace ε α
  | _, 0 => ⟨Except.error none, 0, []⟩
  | attempt, fuel + 1 =>
    match fn attempt with
    | Except.ok v => ⟨Except.ok v, 1, []⟩
    | Except.error e =>
      if attempt == o.attempts || !o.shouldRetry e then
        ⟨Except.error (some e), 1, []⟩
      else
        let d := o.delayMs * o.factor ^ (attempt - 1)
        let rest := retryGo fn o (attempt + 1) fuel
        ⟨rest.result, rest.calls + 1, d :: rest.delays⟩

/-- retry(fn, options): run the loop from attempt 1. -/
def retry {ε α : Type} (fn : Nat → Except ε α) (o : RetryOptions ε) :
    RetryTrace ε α :=
  retryGo fn o 1 o.attempts

theorem retryGo_perm_fail {ε α : Type} (o : RetryOptions ε) (err : Nat → ε)
    (hr : ∀ e, o.shouldRetry e = true) :
    ∀ fuel attempt, 1 ≤ fuel → attempt + fuel = o.attempts + 1 →
      (retryGo (fun k => (Except.error (err k) : Except ε α)) o attempt fuel).calls = fuel ∧
      (retryGo (fun k => (Except.error (err k) : Except ε α)) o attempt fuel).result
        = Except.error (some (err o.attempts)) := by
  intro fuel
  induction fuel with
  | zero => intro attempt h1 _; omega
  | succ f ih =>
    intro attempt _ hsum
    by_cases hlast : attempt = o.attempts
    · have hf : f = 0 := by omega
      subst hf
      simp [retryGo, hlast]
    · have hne : (attempt == o.attempts) = false := by
        simp [hlast]
      have hrf : f = o.attempts - attempt := by omega
      have hf1 : 1 ≤ f := by omega
      have ihres := ih (attempt + 1) hf1 (by omega)
      simp only [retryGo, hne, hr, Bool.false_or, Bool.not_true, if_neg, Bool.false_eq_true,
        not_false_eq_true]
      exact ⟨by rw [ihres.1], ihres.2⟩

/-- C3: a permanently failing operation is invoked exactly n times and the
final error is the error of the last invocation, unchanged. -/
theorem retry_perm_fail {ε α : Type} (o : RetryOptions ε) (err : Nat → ε)
    (h1 : 1 ≤ o.attempts) (hr : ∀ e, o.shouldRetry e = true) :
    (retry (fun k => (Except.error (err k) : Except ε α)) o).calls = o.attempts ∧
    (retry (fun k => (Except.error (err k) : Except ε α)) o).result
      = Except.error (some (err o.attempts)) :=
  retryGo_perm_fail o err hr o.attempts 1 h1 (by omega)

theorem retry_perm_fail_witness :
    1 ≤ (defaultRetryOptions (ε := String)).attempts ∧
    (retry (fun k => (Except.error (toString k) : Except String Unit))
        defaultRetryOptions).calls = (defaultRetryOptions (ε := String)).attempts ∧
    (retry (fun k => (Except.error (toString k) : Except String Unit))
        defaultRetryOptions).result = Except.error (some (toString 5)) := by
  refine ⟨by decide, ?_, ?_⟩
  · exact (retry_perm_fail defaultRetryOptions (fun k => toString k)
      (by decide) (fun e => rfl)).1
  · exact (retry_perm_fail defaultRetryOptions (fun k => toString k)
      (by decide) (fun e => rfl)).2

theorem retryGo_fail_then_succeed {ε α : Type} (o : RetryOptions ε)
    (fn : Nat → Except ε α) (err : Nat → ε) (k : Nat) (v : α)
    (hr : ∀ e, o.shouldRetry e = true)
    (hk : k + 1 ≤ o.attempts)
    (hfail : ∀ j, 1 ≤ j → j ≤ k → fn j = Except.error (err j))
    (hsucc : fn (k + 1) = Except.ok v) :
    ∀ fuel attempt, attempt + fuel = o.attempts + 1 → 1 ≤ attempt → attempt ≤ k + 1 →
      (retryGo fn o attempt fuel).calls = k + 2 - attempt ∧
      (retryGo fn o attempt fuel).result = Except.ok v := by
  intro fuel
  induction fuel with
  | zero => intro attempt hsum h1 hle; omega
  | succ f ih =>
    intro attempt hsum h1 hle
    by_cases hstop : attempt = k + 1
    · subst hstop
      simp [retryGo, hsucc]
    · have hak : attempt ≤ k := by omega
      have hfa : fn attempt = Except.error (err attempt) := hfail attempt h1 hak
      have hne : (attempt == o.attempts) = false := by
        have : attempt ≠ o.attempts := by omega
        simp [this]
      have ihres := ih (attempt + 1) (by omega) (by omega) (by omega)
      simp only [retryGo, hfa, hne, hr, Bool.false_or, Bool.not_true, Bool.false_eq_true,
        not_false_eq_true, if_neg]
      constructor
      · rw [ihres.1]; omega
      · exact ihres.2

/-- C4: an operation failing k < n times and then succeeding is invoked
exactly k + 1 times and the wrapper returns the success value. -/
theorem retry_fail_then_succeed {ε α : Type} (o : RetryOptions ε)
    (fn : Nat → Except ε α) (err : Nat → ε) (k : Nat) (v : α)
    (hr : ∀ e, o.shouldRetry e = true)
    (hk : k < o.attempts)
    (hfail : ∀ j, 1 ≤ j → j ≤ k → fn j = Except.error (err j))
    (hsucc : fn (k + 1) = Except.ok v) :
    (retry fn o).calls = k + 1 ∧ (retry fn o).result = Except.ok v := by
  have h := retryGo_fail_then_succeed o fn err k v hr (by omega) hfail hsucc
    o.attempts 1 (by omega) (by omega) (by omega)
  exact ⟨by rw [retry, h.1]; omega, h.2⟩

def witnessFnC4 : Nat → Except String Nat :=
  fun k => if k ≤ 2 then Except.error "boom" else Except.ok 42

theorem retry_fail_then_succeed_witness :
    (∀ e, (defaultRetryOptions (ε := String)).shouldRetry e = true) ∧
    2 < (defaultRetryOptions (ε := String)).attempts ∧
    (∀ j, 1 ≤ j → j ≤ 2 → witnessFnC4 j = Except.error "boom") ∧
    witnessFnC4 3 = Except.ok 42 ∧
    (retry witnessFnC4 defaultRetryOptions).calls = 3 ∧
    (retry witnessFnC4 defaultRetryOptions).result = Except.ok 42 := by
  refine ⟨fun e => rfl, by decide, ?_, rfl, ?_⟩
  · intro j h1 h2
    interval_cases j <;> rfl
  · exact retry_fail_then_succeed defaultRetryOptions witnessFnC4
      (fun _ => "boom") 2 42 (fun e => rfl) (by decide)
      (by intro j h1 h2; interval_cases j <;> rfl) rfl

/-- C5: when shouldRetry rejects the error of the first failure, the
operation is invoked exactly once, no backoff delay is slept, and the
wrapper rejects with that very error. -/
theorem retry_should_retry_false {ε α : Type} (o : RetryOptions ε)
    (fn : Nat → Except ε α) (e : ε)
    (h1 : 1 ≤ o.attempts)
    (hfail : fn 1 = Except.error e)
    (hsr : o.shouldRetry e = false) :
    (retry fn o).calls = 1 ∧ (retry fn o).delays = [] ∧
    (retry fn o).result = Except.error (some e) := by
  obtain ⟨f, hf⟩ : ∃ f, o.attempts = f + 1 := ⟨o.attempts - 1, by omega⟩
  rw [retry, hf]
  simp [retryGo, hfail, hsr]

def witnessOptsC5 : RetryOptions String :=
  ⟨5, 1000, 2, fun e => !(e == "fatal")⟩

theorem retry_should_retry_false_witness :
    1 ≤ witnessOptsC5.attempts ∧
    (fun (_ : Nat) => (Except.error "fatal" : Except String Nat)) 1
      = Except.error "fatal" ∧
    witnessOptsC5.shouldRetry "fatal" = false ∧
    (retry (fun _ => (Except.error "fatal" : Except String Nat)) witnessOptsC5).calls = 1 ∧
    (retry (fun _ => (Except.error "fatal" : Except String Nat)) witnessOptsC5).delays = [] ∧
    (retry (fun _ => (Except.error "fatal" : Except String Nat)) witnessOptsC5).result
      = Except.error (some "fatal") := by
  have h := retry_should_retry_false witnessOptsC5
    (fun _ => (Except.error "fatal" : Except String Nat)) "fatal"
    (by decide) rfl (by decide)
  exact ⟨by decide, rfl, by decide, h.1, h.2.1, h.2.2⟩

end TaskApp

namespace TaskApp

/-! ## Data model (src: modules/tasks/entities/task.entity.ts) -/

/-- The recognized task status values (enums/task-status.enum.ts);
status inputs arrive as raw strings and are checked against this list. -/
def taskStatusValues : List String := ["PENDING", "IN_PROGRESS", "COMPLETED"]

/-- A persisted Task row.  Timestamps are omitted; dueDate is an integer
clock value (nullable column). -/
structure Task where
  id : String
  title : String
  description : Option String
  status : String
  priority : String
  dueDate : Option Int
  userId : String
deriving DecidableEq

structure CreateTaskDto where
  title : String
  description : Option String
  status : Option String
  priority : Option String
  dueDate : Option Int
  userId : String
deriving DecidableEq

structure UpdateTaskDto where
  title : Option String
  description : Option String
  status : Option String
  priority : Option String
  dueDate : Option Int
deriving DecidableEq

/-- Entity construction on create: absent status/priority fall back to the
column defaults PENDING / MEDIUM; the id is the db-generated key. -/
def mkTask (dto : CreateTaskDto) (newId : String) : Task :=
  ⟨newId, dto.title, dto.description, dto.status.getD "PENDING",
    dto.priority.getD "MEDIUM", dto.dueDate, dto.userId⟩

/-- Object.assign(task, updateTaskDto): every field present in the patch
overwrites the loaded entity. -/
def applyPatch (t : Task) (dto : UpdateTaskDto) : Task :=
  ⟨t.id, dto.title.getD t.title,
    (match dto.description with | some d => some d | none => t.description),
    dto.status.getD t.status, dto.priority.getD t.priority,
    (match dto.dueDate with | some d => some d | none => t.dueDate),
    t.userId⟩

/-! ## Execution environment and observable events -/

/-- Behaviour of the external collaborators during one service call:
whether the entity save fails, whether the raw bulk db write fails,
whether the transaction commit fails, and the outcome of the k-th
underlying queue enqueue call inside the retried enqueue block
(none = success, some e = rejection with error e). -/
structure Env where
  saveFails : Bool
  dbFails : Bool
  commitFails : Bool
  enqueueCall : Nat → Option String

/-- Observable events of one service call, in program order. -/
inductive Event where
  | beginTx : Event
  | save : Task → Event
  | dbUpdate : List String → String → Event
  | dbDelete : List String → Event
  | enqueue : String → String → Event
  | commit : Event
  | rollback : Event
  | release : Event
deriving DecidableEq

def isEnqueueEvt : Event → Bool
  | Event.enqueue _ _ => true
  | _ => false

def isCommitEvt : Event → Bool
  | Event.commit => true
  | _ => false

/-- Errors surfaced by the service layer. -/
inductive Err where
  | notFound : String → Err
  | badRequest : String → Err
  | infra : String → Err
  | queue : Option String → Err
deriving DecidableEq

/-- Result of one service call: outcome, resulting store contents, and the
events performed. -/
structure MutResult (ρ : Type) where
  outcome : Except Err ρ
  store : List Task
  trace : List Event

/-- The k-th invocation of the queue service inside a retried block, as an
Except-valued operation for the retry wrapper. -/
def enqueueFn (env : Env) : Nat → Except String Unit :=
  fun k =>
    match env.enqueueCall k with
    | none => Except.ok ()
    | some e => Except.error e

/-- await retry(() => taskQueueService.enqueueStatusUpdate(...)): the
settled outcome of the retried enqueue block, with the default policy. -/
def retriedEnqueue (env : Env) : Except (Option String) Unit :=
  (retry (enqueueFn env) defaultRetryOptions).result

namespace TasksService

/-- TasksService.create: begin transaction, save the new row, run the
retried enqueue, then commit; any failure rolls the transaction back and
propagates; the connection is released on every path. -/
def create (env : Env) (dto : CreateTaskDto) (newId : String)
    (store : List Task) : MutResult Task :=
  if env.saveFails then
    ⟨Except.error (Err.infra "save failed"), store,
      [Event.beginTx, Event.rollback, Event.release]⟩
  else
    let savedTask := mkTask dto newId
    match retriedEnqueue env with
    | Except.ok _ =>
      if env.commitFails then
        ⟨Except.error (Err.infra "commit failed"), store,
          [Event.beginTx, Event.save savedTask,
            Event.enqueue savedTask.id savedTask.status,
            Event.rollback, Event.release]⟩
      else
        ⟨Except.ok savedTask, store ++ [savedTask],
          [Event.beginTx, Event.save savedTask,
            Event.enqueue savedTask.id savedTask.status,
            Event.commit, Event.release]⟩
    | Except.error e =>
      ⟨Except.error (Err.queue e), store,
        [Event.beginTx, Event.save savedTask,
          Event.enqueue savedTask.id savedTask.status,
          Event.rollback, Event.release]⟩

/-- The fail-fast status check at the top of update.  The source guard is
updateTaskDto.status && !Object.values(TaskStatus).includes(...), a JS
truthiness test: an absent status and the falsy empty string both
short-circuit the conjunction, so only a present non-empty status value
outside the enum trips the guard. -/
def statusPatchInvalid (dto : UpdateTaskDto) : Bool :=
  match dto.status with
  | some s => !(s == "") && !(taskStatusValues.contains s)
  | none => false

/-- TasksService.update: validate the status patch, then in a transaction
load the task (NotFound if absent), apply the patch, save, enqueue a
status-update iff the status value changed, commit. -/
def update (env : Env) (id : String) (dto : UpdateTaskDto)
    (store : List Task) : MutResult Task :=
  if statusPatchInvalid dto then
    ⟨Except.error (Err.badRequest "Invalid status value"), store, []⟩
  else
    match store.find? (fun t => t.id == id) with
    | none =>
      ⟨Except.error (Err.notFound "Task not found"), store,
        [Event.beginTx, Event.rollback, Event.release]⟩
    | some task =>
      if env.saveFails then
        ⟨Except.error (Err.infra "save failed"), store,
          [Event.beginTx, Event.rollback, Event.release]⟩
      else
        let updatedTask := applyPatch task dto
        let newStore := store.map (fun t => if t.id == id then updatedTask else t)
        if task.status == updatedTask.status then
          if env.commitFails then
            ⟨Except.error (Err.infra "commit failed"), store,
              [Event.beginTx, Event.save updatedTask, Event.rollback, Event.release]⟩
          else
            ⟨Except.ok updatedTask, newStore,
              [Event.beginTx, Event.save updatedTask, Event.commit, Event.release]⟩
        else
          match retriedEnqueue env with
          | Except.ok _ =>
            if env.commitFails then
              ⟨Except.error (Err.infra "commit failed"), store,
                [Event.beginTx, Event.save updatedTask,
                  Event.enqueue updatedTask.id updatedTask.status,
                  Event.rollback, Event.release]⟩
            else
              ⟨Except.ok updatedTask, newStore,
                [Event.beginTx, Event.save updatedTask,
                  Event.enqueue updatedTask.id updatedTask.status,
                  Event.commit, Event.release]⟩
          | Except.error e =>
            ⟨Except.error (Err.queue e), store,
              [Event.beginTx, Event.save updatedTask,
                Event.enqueue updatedTask.id updatedTask.status,
                Event.rollback, Event.release]⟩

def setStatus (t : Task) (s : String) : Task :=
  ⟨t.id, t.title, t.description, s, t.priority, t.dueDate, t.userId⟩

/-- The working store of bulkUpdateStatus after the raw db update: every
row whose id is in the list has its status overwritten. -/
def bulkNewStore (ids : List String) (status : String) (store : List Task) :
    List Task :=
  store.map (fun t => if ids.contains t.id then setStatus t status else t)

/-- The re-read of the affected rows inside bulkUpdateStatus (find where
id In ids, after the update). -/
def bulkUpdatedTasks (ids : List String) (status : String)
    (store : List Task) : List Task :=
  (bulkNewStore ids status store).filter (fun t => ids.contains t.id)

/-- The enqueue events of the bulk fan-out, one per affected row. -/
def bulkEnqueueEvts (ids : List String) (status : String)
    (store : List Task) : List Event :=
  (bulkUpdatedTasks ids status store).map (fun t => Event.enqueue t.id t.status)

/-- await retry(() => Promise.all(updatedTasks.map(enqueue))): the settled
outcome of the retried batch enqueue.  A Promise.all over an empty list
resolves immediately, so an empty batch cannot fail. -/
def retriedBatchEnqueue (env : Env) (updatedTasks : List Task) :
    Except (Option String) Unit :=
  if updatedTasks.isEmpty then Except.ok () else retriedEnqueue env

/-- TasksService.bulkUpdateStatus: validate non-empty ids and a recognized
status before the transaction; then update all matching rows, re-read
them, enqueue one notification per affected row (retried as a batch), and
commit. -/
def bulkUpdateStatus (env : Env) (ids : List String) (status : String)
    (store : List Task) : MutResult (List Task) :=
  if ids.isEmpty then
    ⟨Except.error (Err.badRequest "IDs array must be non-empty"), store, []⟩
  else if !(taskStatusValues.contains status) then
    ⟨Except.error (Err.badRequest "Invalid status value"), store, []⟩
  else if env.dbFails then
    ⟨Except.error (Err.infra "db update failed"), store,
      [Event.beginTx, Event.rollback, Event.release]⟩
  else
    match retriedBatchEnqueue env (bulkUpdatedTasks ids status store) with
    | Except.ok _ =>
      if env.commitFails then
        ⟨Except.error (Err.infra "commit failed"), store,
          [Event.beginTx, Event.dbUpdate ids status]
            ++ bulkEnqueueEvts ids status store
            ++ [Event.rollback, Event.release]⟩
      else
        ⟨Except.ok (bulkUpdatedTasks ids status store), bulkNewStore ids status store,
          [Event.beginTx, Event.dbUpdate ids status]
            ++ bulkEnqueueEvts ids status store
            ++ [Event.commit, Event.release]⟩
    | Except.error e =>
      ⟨Except.error (Err.queue e), store,
        [Event.beginTx, Event.dbUpdate ids status]
          ++ bulkEnqueueEvts ids status store
          ++ [Event.rollback, Event.release]⟩

/-- TasksService.bulkDelete: validate non-empty ids before the
transaction; delete all matching rows; NotFound (and rollback) when zero
rows were affected; otherwise commit. -/
def bulkDelete (env : Env) (ids : List String) (store : List Task) :
    MutResult Unit :=
  if ids.isEmpty then
    ⟨Except.error (Err.badRequest "IDs array must be non-empty"), store, []⟩
  else if env.dbFails then
    ⟨Except.error (Err.infra "db delete failed"), store,
      [Event.beginTx, Event.rollback, Event.release]⟩
  else
    let affected := (store.filter (fun t => ids.contains t.id)).length
    if affected == 0 then
      ⟨Except.error (Err.notFound "No tasks found for bulk deletion"), store,
        [Event.beginTx, Event.dbDelete ids, Event.rollback, Event.release]⟩
    else if env.commitFails then
      ⟨Except.error (Err.infra "commit failed"), store,
        [Event.beginTx, Event.dbDelete ids, Event.rollback, Event.release]⟩
    else
      ⟨Except.ok (), store.filter (fun t => !(ids.contains t.id)),
        [Event.beginTx, Event.dbDelete ids, Event.commit, Event.release]⟩

/-- The overdue filter: dueDate strictly before now (a NULL dueDate never
compares) and status not COMPLETED. -/
def isOverdue (now : Int) (t : Task) : Bool :=
  (match t.dueDate with | some d => decide (d < now) | none => false)
    && !(t.status == "COMPLETED")

/-- TasksService.getOverdueTasks: a retried read of the rows matching the
overdue filter; no store mutation; a failed read surfaces as a wrapped
infrastructure error. -/
def getOverdueTasks (env : Env) (now : Int) (store : List Task) :
    MutResult (List Task) :=
  if env.dbFails then
    ⟨Except.error (Err.infra "Failed to fetch overdue tasks"), store, []⟩
  else
    ⟨Except.ok (store.filter (isOverdue now)), store, []⟩

end TasksService

/-! ## BullMQ queue adapter
(src: modules/tasks/infrastructure/bullmq-task-queue.service.ts) -/

/-- Behaviour of the underlying BullMQ queue during one call: the error
its add method rejects with, if any. -/
structure QueueEnv where
  addFails : Option String

/-- queue.add of the task-status-update job. -/
def queueAdd (qenv : QueueEnv) : Except String Unit :=
  match qenv.addFails with
  | none => Except.ok ()
  | some e => Except.error e

namespace BullMqTaskQueueService

/-- BullMqTaskQueueService.enqueueStatusUpdate: awaits queue.add inside a
try/catch whose handler only logs a warning; returns the settled outcome
paired with the warnings logged. -/
def enqueueStatusUpdate (qenv : QueueEnv) (taskId status : String) :
    Except String Unit × List String :=
  match queueAdd qenv with
  | Except.ok _ => (Except.ok (), [])
  | Except.error _ =>
    (Except.ok (), ["Failed to enqueue task-status-update for task " ++ taskId])

end BullMqTaskQueueService

end TaskApp

namespace TaskApp

/-! ## Trace-ordering helpers -/

/-- Every enqueue event in the trace occurs at a strictly smaller index
than every commit event. -/
def enqueuePrecedesCommit (tr : List Event) : Prop :=
  ∀ i j, (hi : i < tr.length) → (hj : j < tr.length) →
    isEnqueueEvt (tr.get ⟨i, hi⟩) = true → isCommitEvt (tr.get ⟨j, hj⟩) = true → i < j

theorem epc_append (xs ys : List Event)
    (hx : ∀ e ∈ xs, isCommitEvt e = false)
    (hy : ∀ e ∈ ys, isEnqueueEvt e = false) :
    enqueuePrecedesCommit (xs ++ ys) := by
  intro i j hi hj he hc
  have hlen : (xs ++ ys).length = xs.length + ys.length := List.length_append xs ys
  rw [List.get_eq_getElem] at he hc
  have hjx : xs.length ≤ j := by
    by_contra hjl
    push_neg at hjl
    rw [List.getElem_append_left hjl] at hc
    have hmem : xs[j] ∈ xs := List.getElem_mem hjl
    have hfalse := hx xs[j] hmem
    simp [hfalse] at hc
  have hix : i < xs.length := by
    by_contra hig
    push_neg at hig
    rw [List.getElem_append_right hig] at he
    have hiy : i - xs.length < ys.length := by omega
    have hmem : ys[i - xs.length] ∈ ys := List.getElem_mem hiy
    have hfalse := hy (ys[i - xs.length]) hmem
    simp [hfalse] at he
  omega

theorem epc_no_commit (tr : List Event)
    (h : ∀ e ∈ tr, isCommitEvt e = false) :
    enqueuePrecedesCommit tr := by
  intro i j hi hj he hc
  have hfalse := h (tr.get ⟨j, hj⟩) (List.get_mem tr j hj)
  rw [hfalse] at hc
  exact absurd hc (Bool.false_ne_true)

def countEnqueues (tr : List Event) : Nat :=
  (tr.filter isEnqueueEvt).length

/-- The store-write event of a mutation: the entity save of create and
update, or the raw db update of bulkUpdateStatus. -/
def isWriteEvt : Event → Bool
  | Event.save _ => true
  | Event.dbUpdate _ _ => true
  | _ => false

/-- Every store-write event in the trace occurs at a strictly smaller
index than every enqueue event. -/
def writePrecedesEnqueue (tr : List Event) : Prop :=
  ∀ i j, (hi : i < tr.length) → (hj : j < tr.length) →
    isWriteEvt (tr.get ⟨i, hi⟩) = true → isEnqueueEvt (tr.get ⟨j, hj⟩) = true → i < j

theorem wpe_append (xs ys : List Event)
    (hx : ∀ e ∈ xs, isEnqueueEvt e = false)
    (hy : ∀ e ∈ ys, isWriteEvt e = false) :
    writePrecedesEnqueue (xs ++ ys) := by
  intro i j hi hj hw he
  have hlen : (xs ++ ys).length = xs.length + ys.length := List.length_append xs ys
  rw [List.get_eq_getElem] at hw he
  have hjx : xs.length ≤ j := by
    by_contra hjl
    push_neg at hjl
    rw [List.getElem_append_left hjl] at he
    have hmem : xs[j] ∈ xs := List.getElem_mem hjl
    have hfalse := hx xs[j] hmem
    simp [hfalse] at he
  have hix : i < xs.length := by
    by_contra hig
    push_neg at hig
    rw [List.getElem_append_right hig] at hw
    have hiy : i - xs.length < ys.length := by omega
    have hmem : ys[i - xs.length] ∈ ys := List.getElem_mem hiy
    have hfalse := hy (ys[i - xs.length]) hmem
    simp [hfalse] at hw
  omega

theorem wpe_no_enqueue (tr : List Event)
    (h : ∀ e ∈ tr, isEnqueueEvt e = false) :
    writePrecedesEnqueue tr := by
  intro i j hi hj hw he
  have hfalse := h (tr.get ⟨j, hj⟩) (List.get_mem tr j hj)
  rw [hfalse] at he
  exact absurd he (Bool.false_ne_true)

theorem no_enqueue_absurd {tr : List Event}
    (hall : ∀ e ∈ tr, isEnqueueEvt e = false)
    (hex : ∃ e ∈ tr, isEnqueueEvt e = true) : False := by
  rcases hex with ⟨e, hm, hq⟩
  rw [hall e hm] at hq
  exact absurd hq (Bool.false_ne_true)

/-! ## Concrete demonstration data shared by the witnesses -/

def envOk : Env := ⟨false, false, false, fun _ => none⟩

def envEnqFail : Env := ⟨false, false, false, fun _ => some "boom"⟩

def dto0 : CreateTaskDto := ⟨"t", none, none, none, none, "u1"⟩

def demoTask1 : Task := ⟨"t1", "Test Task", none, "PENDING", "HIGH", some 50, "u1"⟩

def demoTaskFuture : Task := ⟨"t2", "Future", none, "PENDING", "MEDIUM", some 200, "u1"⟩

def demoTaskDone : Task := ⟨"t3", "Done", none, "COMPLETED", "LOW", some 10, "u1"⟩

def demoStore : List Task := [demoTask1, demoTaskFuture, demoTaskDone]

def udtoStatus : UpdateTaskDto := ⟨none, none, some "COMPLETED", none, none⟩

def udtoTitle : UpdateTaskDto := ⟨some "x", none, none, none, none⟩

/-! ## Claims about the service operations -/

/-- C10: BullMqTaskQueueService.enqueueStatusUpdate never rejects: for
every behaviour of the underlying queue and every input, the method
resolves normally (any add failure is caught and only logged), so an
enqueue failure is never observable to the caller. -/
theorem enqueueStatusUpdate_never_rejects (qenv : QueueEnv)
    (taskId status : String) :
    (BullMqTaskQueueService.enqueueStatusUpdate qenv taskId status).1
      = Except.ok () := by
  rcases qenv with ⟨af⟩
  cases af <;> rfl

/-- C9: getOverdueTasks returns exactly the tasks whose dueDate is
strictly before now and whose status is not COMPLETED, and it performs no
mutation of the store. -/
theorem getOverdueTasks_spec (env : Env) (now : Int) (store : List Task)
    (h : env.dbFails = false) :
    (TasksService.getOverdueTasks env now store).store = store ∧
    (TasksService.getOverdueTasks env now store).trace = [] ∧
    ∃ l, (TasksService.getOverdueTasks env now store).outcome = Except.ok l ∧
      ∀ t, t ∈ l ↔ (t ∈ store ∧ (∃ d, t.dueDate = some d ∧ d < now) ∧
        t.status ≠ "COMPLETED") := by
  have hred : TasksService.getOverdueTasks env now store
      = ⟨Except.ok (store.filter (TasksService.isOverdue now)), store, []⟩ := by
    simp [TasksService.getOverdueTasks, h]
  rw [hred]
  refine ⟨rfl, rfl, store.filter (TasksService.isOverdue now), rfl, ?_⟩
  intro t
  rw [List.mem_filter]
  unfold TasksService.isOverdue
  constructor
  · rintro ⟨hm, hb⟩
    rw [Bool.and_eq_true] at hb
    obtain ⟨h1, h2⟩ := hb
    refine ⟨hm, ?_, ?_⟩
    · cases hd : t.dueDate with
      | none => rw [hd] at h1; exact absurd h1 (by simp)
      | some d => rw [hd] at h1; exact ⟨d, rfl, by simpa using h1⟩
    · intro hcomp
      rw [hcomp] at h2
      simp at h2
  · rintro ⟨hm, ⟨d, hd, hlt⟩, hst⟩
    refine ⟨hm, ?_⟩
    rw [Bool.and_eq_true]
    constructor
    · rw [hd]; simpa using hlt
    · simpa using hst

theorem getOverdueTasks_spec_witness :
    envOk.dbFails = false ∧
    ((TasksService.getOverdueTasks envOk 100 demoStore).store = demoStore ∧
     (TasksService.getOverdueTasks envOk 100 demoStore).trace = [] ∧
     ∃ l, (TasksService.getOverdueTasks envOk 100 demoStore).outcome = Except.ok l ∧
       ∀ t, t ∈ l ↔ (t ∈ demoStore ∧ (∃ d, t.dueDate = some d ∧ d < 100) ∧
         t.status ≠ "COMPLETED")) :=
  ⟨rfl, getOverdueTasks_spec envOk 100 demoStore rfl⟩

/-- C8: bulkDelete on a non-empty id list matching no stored task fails
with NotFound, rolls the transaction back without committing, and leaves
the store unchanged. -/
theorem bulkDelete_none_matching (env : Env) (ids : List String)
    (store : List Task)
    (hne : ids ≠ []) (hdb : env.dbFails = false)
    (hnone : ∀ t ∈ store, ids.contains t.id = false) :
    TasksService.bulkDelete env ids store
      = ⟨Except.error (Err.notFound "No tasks found for bulk deletion"), store,
          [Event.beginTx, Event.dbDelete ids, Event.rollback, Event.release]⟩ := by
  have hemp : ids.isEmpty = false := by
    cases ids with
    | nil => exact absurd rfl hne
    | cons a l => rfl
  have hfilter : store.filter (fun t => ids.contains t.id) = [] := by
    rw [List.filter_eq_nil]
    intro t ht
    rw [hnone t ht]
    exact Bool.false_ne_true
  simp only [TasksService.bulkDelete, hemp, hdb, hfilter, Bool.false_eq_true, if_false,
    List.length_nil]
  rfl

theorem bulkDelete_none_matching_witness :
    (["zz"] : List String) ≠ [] ∧ envOk.dbFails = false ∧
    (∀ t ∈ demoStore, (["zz"] : List String).contains t.id = false) ∧
    TasksService.bulkDelete envOk ["zz"] demoStore
      = ⟨Except.error (Err.notFound "No tasks found for bulk deletion"), demoStore,
          [Event.beginTx, Event.dbDelete ["zz"], Event.rollback, Event.release]⟩ := by
  refine ⟨by decide, rfl, by decide, ?_⟩
  exact bulkDelete_none_matching envOk ["zz"] demoStore (by decide) rfl (by decide)

end TaskApp

namespace TaskApp

def udtoBad : UpdateTaskDto := ⟨none, none, some "DONE", none, none⟩

/-- C6: update fails with NotFound when no task with the given id exists,
and (on a reachable save) the trace contains exactly one enqueue when the
post-patch status differs from the pre-patch status and zero enqueues
otherwise. -/
theorem update_notfound_and_enqueue_iff (env : Env) (id : String)
    (dto : UpdateTaskDto) (store : List Task)
    (hv : TasksService.statusPatchInvalid dto = false)
    (hs : env.saveFails = false) :
    (store.find? (fun t => t.id == id) = none →
      (TasksService.update env id dto store).outcome
        = Except.error (Err.notFound "Task not found")) ∧
    (∀ task, store.find? (fun t => t.id == id) = some task →
      countEnqueues (TasksService.update env id dto store).trace
        = (if (applyPatch task dto).status = task.status then 0 else 1)) := by
  constructor
  · intro hnone
    simp [TasksService.update, hv, hnone]
  · intro task hfind
    cases hsc : (task.status == (applyPatch task dto).status) with
    | true =>
      have hq : (applyPatch task dto).status = task.status := (beq_iff_eq.mp hsc).symm
      cases hc : env.commitFails with
      | true =>
        simp [TasksService.update, hv, hfind, hs, hsc, hc, hq, countEnqueues, isEnqueueEvt]
      | false =>
        simp [TasksService.update, hv, hfind, hs, hsc, hc, hq, countEnqueues, isEnqueueEvt]
    | false =>
      have hq : ¬((applyPatch task dto).status = task.status) := by
        intro h
        rw [← h] at hsc
        simp at hsc
      cases he : retriedEnqueue env with
      | error e =>
        simp [TasksService.update, hv, hfind, hs, hsc, he, hq, countEnqueues, isEnqueueEvt]
      | ok v =>
        cases hc : env.commitFails with
        | true =>
          simp [TasksService.update, hv, hfind, hs, hsc, he, hc, hq, countEnqueues, isEnqueueEvt]
        | false =>
          simp [TasksService.update, hv, hfind, hs, hsc, he, hc, hq, countEnqueues, isEnqueueEvt]

theorem update_notfound_and_enqueue_iff_witness :
    TasksService.statusPatchInvalid udtoStatus = false ∧ envOk.saveFails = false ∧
    ([] : List Task).find? (fun t => t.id == "zz") = none ∧
    (TasksService.update envOk "zz" udtoStatus []).outcome
      = Except.error (Err.notFound "Task not found") ∧
    demoStore.find? (fun t => t.id == "t1") = some demoTask1 ∧
    countEnqueues (TasksService.update envOk "t1" udtoStatus demoStore).trace = 1 ∧
    TasksService.statusPatchInvalid udtoTitle = false ∧
    countEnqueues (TasksService.update envOk "t1" udtoTitle demoStore).trace = 0 := by
  refine ⟨rfl, rfl, rfl, ?_, by decide, ?_, rfl, ?_⟩
  · exact (update_notfound_and_enqueue_iff envOk "zz" udtoStatus [] rfl rfl).1 rfl
  · have h := (update_notfound_and_enqueue_iff envOk "t1" udtoStatus demoStore rfl rfl).2
      demoTask1 (by decide)
    rw [h]
    decide
  · have h := (update_notfound_and_enqueue_iff envOk "t1" udtoTitle demoStore rfl rfl).2
      demoTask1 (by decide)
    rw [h]
    decide

def udtoEmptyStatus : UpdateTaskDto := ⟨none, none, some "", none, none⟩

/-- C7 counterexample: the empty string is a status value outside
PENDING, IN_PROGRESS, COMPLETED, yet update does not reject it before the
transaction: the source guard updateTaskDto.status && !includes(...)
short-circuits on the falsy empty string, the transaction opens (beginTx
is traced), the patch is saved, and the store is mutated. -/
theorem update_empty_status_not_validated_cex :
    taskStatusValues.contains "" = false ∧
    TasksService.statusPatchInvalid udtoEmptyStatus = false ∧
    Event.beginTx ∈ (TasksService.update envOk "t1" udtoEmptyStatus demoStore).trace ∧
    (TasksService.update envOk "t1" udtoEmptyStatus demoStore).trace ≠ [] ∧
    (TasksService.update envOk "t1" udtoEmptyStatus demoStore).store ≠ demoStore ∧
    (TasksService.update envOk "t1" udtoEmptyStatus demoStore).outcome
      = Except.ok (applyPatch demoTask1 udtoEmptyStatus) :=
  ⟨rfl, rfl, by decide, by decide, by decide, rfl⟩

/-- C7 (amended): an empty ids list for bulkUpdateStatus or bulkDelete,
an unrecognized status value for bulkUpdateStatus, and a present
NON-EMPTY status value outside the enum for update, are each rejected
with a validation error before any transaction opens (empty trace) and
leave the store untouched.  The empty-string status for update is falsy
in the source guard and skips this validation. -/
theorem validation_rejected_before_transaction (env : Env) (store : List Task) :
    (∀ status, TasksService.bulkUpdateStatus env [] status store
        = ⟨Except.error (Err.badRequest "IDs array must be non-empty"), store, []⟩) ∧
    (∀ ids status, ids ≠ [] → taskStatusValues.contains status = false →
      TasksService.bulkUpdateStatus env ids status store
        = ⟨Except.error (Err.badRequest "Invalid status value"), store, []⟩) ∧
    (TasksService.bulkDelete env [] store
        = ⟨Except.error (Err.badRequest "IDs array must be non-empty"), store, []⟩) ∧
    (∀ id dto s, dto.status = some s → s ≠ "" →
      taskStatusValues.contains s = false →
      TasksService.update env id dto store
        = ⟨Except.error (Err.badRequest "Invalid status value"), store, []⟩) := by
  refine ⟨?_, ?_, ?_, ?_⟩
  · intro status
    simp [TasksService.bulkUpdateStatus]
  · intro ids status hne hst
    have hemp : ids.isEmpty = false := by
      cases ids with
      | nil => exact absurd rfl hne
      | cons a l => rfl
    have hst2 : status ∉ taskStatusValues := by simpa using hst
    simp [TasksService.bulkUpdateStatus, hemp, hst2]
  · simp [TasksService.bulkDelete]
  · intro id dto s hd hs0 hc
    have hc2 : s ∉ taskStatusValues := by simpa using hc
    have hb : (s == "") = false := by simp [hs0]
    have hinv : TasksService.statusPatchInvalid dto = true := by
      simp [TasksService.statusPatchInvalid, hd, hc2, hb]
    simp [TasksService.update, hinv]

theorem validation_rejected_before_transaction_witness :
    (TasksService.bulkUpdateStatus envOk [] "COMPLETED" demoStore
      = ⟨Except.error (Err.badRequest "IDs array must be non-empty"), demoStore, []⟩) ∧
    ((["t1"] : List String) ≠ [] ∧ taskStatusValues.contains "DONE" = false ∧
      TasksService.bulkUpdateStatus envOk ["t1"] "DONE" demoStore
        = ⟨Except.error (Err.badRequest "Invalid status value"), demoStore, []⟩) ∧
    (TasksService.bulkDelete envOk [] demoStore
      = ⟨Except.error (Err.badRequest "IDs array must be non-empty"), demoStore, []⟩) ∧
    (udtoBad.status = some "DONE" ∧ ("DONE" : String) ≠ "" ∧
      taskStatusValues.contains "DONE" = false ∧
      TasksService.update envOk "t1" udtoBad demoStore
        = ⟨Except.error (Err.badRequest "Invalid status value"), demoStore, []⟩) := by
  refine ⟨?_, ⟨by decide, by decide, ?_⟩, ?_, ⟨rfl, by decide, by decide, ?_⟩⟩
  · exact (validation_rejected_before_transaction envOk demoStore).1 "COMPLETED"
  · exact (validation_rejected_before_transaction envOk demoStore).2.1 ["t1"] "DONE"
      (by decide) (by decide)
  · exact (validation_rejected_before_transaction envOk demoStore).2.2.1
  · exact (validation_rejected_before_transaction envOk demoStore).2.2.2 "t1" udtoBad "DONE"
      rfl (by decide) (by decide)

end TaskApp

namespace TaskApp

/-- C1 counterexample: in the successful execution of create on concrete
input, the trace is beginTx, save, enqueue (index 2), commit (index 3),
release — the enqueue occurs and the commit does NOT precede it; moreover
in the execution where the retried enqueue fails the transaction is
rolled back (it fails) yet an enqueue attempt did occur. -/
theorem create_enqueue_precedes_commit_cex :
    (TasksService.create envOk dto0 "id1" []).trace.findIdx isEnqueueEvt = 2 ∧
    (TasksService.create envOk dto0 "id1" []).trace.findIdx isCommitEvt = 3 ∧
    Event.enqueue "id1" "PENDING" ∈ (TasksService.create envOk dto0 "id1" []).trace ∧
    (TasksService.create envOk dto0 "id1" []).outcome = Except.ok (mkTask dto0 "id1") ∧
    ¬((TasksService.create envOk dto0 "id1" []).trace.findIdx isCommitEvt
        < (TasksService.create envOk dto0 "id1" []).trace.findIdx isEnqueueEvt) ∧
    ((TasksService.create envEnqFail dto0 "id1" []).outcome
        = Except.error (Err.queue (some "boom")) ∧
      Event.rollback ∈ (TasksService.create envEnqFail dto0 "id1" []).trace ∧
      Event.enqueue "id1" "PENDING" ∈ (TasksService.create envEnqFail dto0 "id1" []).trace) :=
  ⟨rfl, rfl, by decide, rfl, by decide, rfl, by decide, by decide⟩

theorem epc_bulk_rollback (ids : List String) (status : String) (es : List Event)
    (hes : ∀ e ∈ es, isCommitEvt e = false) :
    enqueuePrecedesCommit ([Event.beginTx, Event.dbUpdate ids status] ++ es
      ++ [Event.rollback, Event.release]) := by
  refine epc_no_commit _ ?_
  intro e he
  rw [List.mem_append, List.mem_append] at he
  rcases he with (h | h) | h
  · fin_cases h <;> rfl
  · exact hes e h
  · fin_cases h <;> rfl

theorem epc_bulk_commit (ids : List String) (status : String) (ts : List Task) :
    enqueuePrecedesCommit ([Event.beginTx, Event.dbUpdate ids status]
      ++ ts.map (fun t => Event.enqueue t.id t.status)
      ++ [Event.commit, Event.release]) := by
  refine epc_append _ _ ?_ (by intro e he; fin_cases he <;> rfl)
  intro e he
  rw [List.mem_append] at he
  rcases he with h | h
  · fin_cases h <;> rfl
  · rcases List.mem_map.mp h with ⟨t, _, rfl⟩; rfl

theorem wpe_bulk_tail (ids : List String) (status : String) (es tail : List Event)
    (hes : ∀ e ∈ es, isWriteEvt e = false)
    (htail : ∀ e ∈ tail, isWriteEvt e = false) :
    writePrecedesEnqueue ([Event.beginTx, Event.dbUpdate ids status] ++ es ++ tail) := by
  rw [List.append_assoc]
  refine wpe_append _ _ (by intro e he; fin_cases he <;> rfl) ?_
  intro e he
  rw [List.mem_append] at he
  rcases he with h | h
  · exact hes e h
  · exact htail e h

theorem bulkEnqueueEvts_no_commit (ids : List String) (status : String)
    (store : List Task) :
    ∀ e ∈ TasksService.bulkEnqueueEvts ids status store, isCommitEvt e = false := by
  intro e he
  simp only [TasksService.bulkEnqueueEvts] at he
  rcases List.mem_map.mp he with ⟨t, _, rfl⟩
  rfl

theorem bulkEnqueueEvts_no_write (ids : List String) (status : String)
    (store : List Task) :
    ∀ e ∈ TasksService.bulkEnqueueEvts ids status store, isWriteEvt e = false := by
  intro e he
  simp only [TasksService.bulkEnqueueEvts] at he
  rcases List.mem_map.mp he with ⟨t, _, rfl⟩
  rfl

theorem create_epc (env : Env) (dto : CreateTaskDto) (newId : String)
    (store : List Task) :
    enqueuePrecedesCommit (TasksService.create env dto newId store).trace := by
  cases hs : env.saveFails with
  | true =>
    simp only [TasksService.create, hs, if_true]
    exact epc_no_commit _ (by intro e he; fin_cases he <;> rfl)
  | false =>
    simp only [TasksService.create, hs, Bool.false_eq_true, if_false]
    cases he : retriedEnqueue env with
    | error e =>
      exact epc_no_commit _ (by intro e2 he2; fin_cases he2 <;> rfl)
    | ok v =>
      cases hc : env.commitFails with
      | true =>
        simp only [hc, if_true]
        exact epc_no_commit _ (by intro e2 he2; fin_cases he2 <;> rfl)
      | false =>
        simp only [hc, Bool.false_eq_true, if_false]
        show enqueuePrecedesCommit
          ([Event.beginTx, Event.save (mkTask dto newId),
            Event.enqueue (mkTask dto newId).id (mkTask dto newId).status]
            ++ [Event.commit, Event.release])
        exact epc_append _ _ (by intro e2 he2; fin_cases he2 <;> rfl)
          (by intro e2 he2; fin_cases he2 <;> rfl)

theorem update_epc (env : Env) (id : String) (udto : UpdateTaskDto)
    (store : List Task) :
    enqueuePrecedesCommit (TasksService.update env id udto store).trace := by
  cases hv : TasksService.statusPatchInvalid udto with
  | true =>
    simp only [TasksService.update, hv, if_true]
    exact epc_no_commit _ (by intro e he; simp at he)
  | false =>
    simp only [TasksService.update, hv, Bool.false_eq_true, if_false]
    cases hf : store.find? (fun t => t.id == id) with
    | none =>
      exact epc_no_commit _ (by intro e he; fin_cases he <;> rfl)
    | some task =>
      cases hs : env.saveFails with
      | true =>
        simp only [hs, if_true]
        exact epc_no_commit _ (by intro e he; fin_cases he <;> rfl)
      | false =>
        simp only [hs, Bool.false_eq_true, if_false]
        cases hq : (task.status == (applyPatch task udto).status) with
        | true =>
          simp only [hq, if_true]
          cases hc : env.commitFails with
          | true =>
            simp only [hc, if_true]
            exact epc_no_commit _ (by intro e he; fin_cases he <;> rfl)
          | false =>
            simp only [hc, Bool.false_eq_true, if_false]
            show enqueuePrecedesCommit
              ([Event.beginTx, Event.save (applyPatch task udto)]
                ++ [Event.commit, Event.release])
            exact epc_append _ _ (by intro e2 he2; fin_cases he2 <;> rfl)
              (by intro e2 he2; fin_cases he2 <;> rfl)
        | false =>
          simp only [hq, Bool.false_eq_true, if_false]
          cases he : retriedEnqueue env with
          | error e =>
            exact epc_no_commit _ (by intro e2 he2; fin_cases he2 <;> rfl)
          | ok v =>
            cases hc : env.commitFails with
            | true =>
              simp only [hc, if_true]
              exact epc_no_commit _ (by intro e2 he2; fin_cases he2 <;> rfl)
            | false =>
              simp only [hc, Bool.false_eq_true, if_false]
              show enqueuePrecedesCommit
                ([Event.beginTx, Event.save (applyPatch task udto),
                  Event.enqueue (applyPatch task udto).id (applyPatch task udto).status]
                  ++ [Event.commit, Event.release])
              exact epc_append _ _ (by intro e2 he2; fin_cases he2 <;> rfl)
                (by intro e2 he2; fin_cases he2 <;> rfl)

theorem bulk_epc (env : Env) (ids : List String) (status : String)
    (store : List Task) :
    enqueuePrecedesCommit (TasksService.bulkUpdateStatus env ids status store).trace := by
  cases hemp : ids.isEmpty with
  | true =>
    simp only [TasksService.bulkUpdateStatus, hemp, if_true]
    exact epc_no_commit _ (by intro e he; simp at he)
  | false =>
    simp only [TasksService.bulkUpdateStatus, hemp, Bool.false_eq_true, if_false]
    cases hct : (taskStatusValues.contains status) with
    | false =>
      simp only [hct, Bool.not_false, if_true]
      exact epc_no_commit _ (by intro e he; simp at he)
    | true =>
      simp only [hct, Bool.not_true, Bool.false_eq_true, if_false]
      cases hdb : env.dbFails with
      | true =>
        simp only [hdb, if_true]
        exact epc_no_commit _ (by intro e he; fin_cases he <;> rfl)
      | false =>
        simp only [hdb, Bool.false_eq_true, if_false]
        cases hbe : TasksService.retriedBatchEnqueue env
            (TasksService.bulkUpdatedTasks ids status store) with
        | error e =>
          exact epc_bulk_rollback ids status _
            (bulkEnqueueEvts_no_commit ids status store)
        | ok v =>
          cases hc : env.commitFails with
          | true =>
            exact epc_bulk_rollback ids status _
              (bulkEnqueueEvts_no_commit ids status store)
          | false =>
            exact epc_bulk_commit ids status _

theorem create_wpe (env : Env) (dto : CreateTaskDto) (newId : String)
    (store : List Task) :
    writePrecedesEnqueue (TasksService.create env dto newId store).trace := by
  cases hs : env.saveFails with
  | true =>
    simp only [TasksService.create, hs, if_true]
    exact wpe_no_enqueue _ (by intro e he; fin_cases he <;> rfl)
  | false =>
    simp only [TasksService.create, hs, Bool.false_eq_true, if_false]
    cases he : retriedEnqueue env with
    | error e =>
      show writePrecedesEnqueue
        ([Event.beginTx, Event.save (mkTask dto newId)]
          ++ [Event.enqueue (mkTask dto newId).id (mkTask dto newId).status,
            Event.rollback, Event.release])
      exact wpe_append _ _ (by intro e2 he2; fin_cases he2 <;> rfl)
        (by intro e2 he2; fin_cases he2 <;> rfl)
    | ok v =>
      cases hc : env.commitFails with
      | true =>
        simp only [hc, if_true]
        show writePrecedesEnqueue
          ([Event.beginTx, Event.save (mkTask dto newId)]
            ++ [Event.enqueue (mkTask dto newId).id (mkTask dto newId).status,
              Event.rollback, Event.release])
        exact wpe_append _ _ (by intro e2 he2; fin_cases he2 <;> rfl)
          (by intro e2 he2; fin_cases he2 <;> rfl)
      | false =>
        simp only [hc, Bool.false_eq_true, if_false]
        show writePrecedesEnqueue
          ([Event.beginTx, Event.save (mkTask dto newId)]
            ++ [Event.enqueue (mkTask dto newId).id (mkTask dto newId).status,
              Event.commit, Event.release])
        exact wpe_append _ _ (by intro e2 he2; fin_cases he2 <;> rfl)
          (by intro e2 he2; fin_cases he2 <;> rfl)

theorem update_wpe (env : Env) (id : String) (udto : UpdateTaskDto)
    (store : List Task) :
    writePrecedesEnqueue (TasksService.update env id udto store).trace := by
  cases hv : TasksService.statusPatchInvalid udto with
  | true =>
    simp only [TasksService.update, hv, if_true]
    exact wpe_no_enqueue _ (by intro e he; simp at he)
  | false =>
    simp only [TasksService.update, hv, Bool.false_eq_true, if_false]
    cases hf : store.find? (fun t => t.id == id) with
    | none =>
      exact wpe_no_enqueue _ (by intro e he; fin_cases he <;> rfl)
    | some task =>
      cases hs : env.saveFails with
      | true =>
        simp only [hs, if_true]
        exact wpe_no_enqueue _ (by intro e he; fin_cases he <;> rfl)
      | false =>
        simp only [hs, Bool.false_eq_true, if_false]
        cases hq : (task.status == (applyPatch task udto).status) with
        | true =>
          simp only [hq, if_true]
          cases hc : env.commitFails with
          | true =>
            simp only [hc, if_true]
            exact wpe_no_enqueue _ (by intro e he; fin_cases he <;> rfl)
          | false =>
            simp only [hc, Bool.false_eq_true, if_false]
            exact wpe_no_enqueue _ (by intro e he; fin_cases he <;> rfl)
        | false =>
          simp only [hq, Bool.false_eq_true, if_false]
          cases he : retriedEnqueue env with
          | error e =>
            show writePrecedesEnqueue
              ([Event.beginTx, Event.save (applyPatch task udto)]
                ++ [Event.enqueue (applyPatch task udto).id (applyPatch task udto).status,
                  Event.rollback, Event.release])
            exact wpe_append _ _ (by intro e2 he2; fin_cases he2 <;> rfl)
              (by intro e2 he2; fin_cases he2 <;> rfl)
          | ok v =>
            cases hc : env.commitFails with
            | true =>
              simp only [hc, if_true]
              show writePrecedesEnqueue
                ([Event.beginTx, Event.save (applyPatch task udto)]
                  ++ [Event.enqueue (applyPatch task udto).id (applyPatch task udto).status,
                    Event.rollback, Event.release])
              exact wpe_append _ _ (by intro e2 he2; fin_cases he2 <;> rfl)
                (by intro e2 he2; fin_cases he2 <;> rfl)
            | false =>
              simp only [hc, Bool.false_eq_true, if_false]
              show writePrecedesEnqueue
                ([Event.beginTx, Event.save (applyPatch task udto)]
                  ++ [Event.enqueue (applyPatch task udto).id (applyPatch task udto).status,
                    Event.commit, Event.release])
              exact wpe_append _ _ (by intro e2 he2; fin_cases he2 <;> rfl)
                (by intro e2 he2; fin_cases he2 <;> rfl)

theorem bulk_wpe (env : Env) (ids : List String) (status : String)
    (store : List Task) :
    writePrecedesEnqueue (TasksService.bulkUpdateStatus env ids status store).trace := by
  cases hemp : ids.isEmpty with
  | true =>
    simp only [TasksService.bulkUpdateStatus, hemp, if_true]
    exact wpe_no_enqueue _ (by intro e he; simp at he)
  | false =>
    simp only [TasksService.bulkUpdateStatus, hemp, Bool.false_eq_true, if_false]
    cases hct : (taskStatusValues.contains status) with
    | false =>
      simp only [hct, Bool.not_false, if_true]
      exact wpe_no_enqueue _ (by intro e he; simp at he)
    | true =>
      simp only [hct, Bool.not_true, Bool.false_eq_true, if_false]
      cases hdb : env.dbFails with
      | true =>
        simp only [hdb, if_true]
        exact wpe_no_enqueue _ (by intro e he; fin_cases he <;> rfl)
      | false =>
        simp only [hdb, Bool.false_eq_true, if_false]
        cases hbe : TasksService.retriedBatchEnqueue env
            (TasksService.bulkUpdatedTasks ids status store) with
        | error e =>
          exact wpe_bulk_tail ids status _ _
            (bulkEnqueueEvts_no_write ids status store)
            (by intro e2 he2; fin_cases he2 <;> rfl)
        | ok v =>
          cases hc : env.commitFails with
          | true =>
            exact wpe_bulk_tail ids status _ _
              (bulkEnqueueEvts_no_write ids status store)
              (by intro e2 he2; fin_cases he2 <;> rfl)
          | false =>
            exact wpe_bulk_tail ids status _ _
              (bulkEnqueueEvts_no_write ids status store)
              (by intro e2 he2; fin_cases he2 <;> rfl)

theorem create_save_fail_no_enqueue (env : Env) (dto : CreateTaskDto)
    (newId : String) (store : List Task) (hs : env.saveFails = true) :
    ∀ e ∈ (TasksService.create env dto newId store).trace, isEnqueueEvt e = false := by
  have htr : (TasksService.create env dto newId store).trace
      = [Event.beginTx, Event.rollback, Event.release] := by
    simp [TasksService.create, hs]
  rw [htr]
  intro e he
  fin_cases he <;> rfl

theorem update_save_fail_no_enqueue (env : Env) (id : String)
    (udto : UpdateTaskDto) (store : List Task) (hs : env.saveFails = true) :
    ∀ e ∈ (TasksService.update env id udto store).trace, isEnqueueEvt e = false := by
  cases hv : TasksService.statusPatchInvalid udto with
  | true => simp [TasksService.update, hv]
  | false =>
    cases hf : store.find? (fun t => t.id == id) with
    | none =>
      have htr : (TasksService.update env id udto store).trace
          = [Event.beginTx, Event.rollback, Event.release] := by
        simp [TasksService.update, hv, hf]
      rw [htr]
      intro e he
      fin_cases he <;> rfl
    | some task =>
      have htr : (TasksService.update env id udto store).trace
          = [Event.beginTx, Event.rollback, Event.release] := by
        simp [TasksService.update, hv, hf, hs]
      rw [htr]
      intro e he
      fin_cases he <;> rfl

theorem bulk_db_fail_no_enqueue (env : Env) (ids : List String)
    (status : String) (store : List Task) (hdb : env.dbFails = true) :
    ∀ e ∈ (TasksService.bulkUpdateStatus env ids status store).trace,
      isEnqueueEvt e = false := by
  cases hemp : ids.isEmpty with
  | true => simp [TasksService.bulkUpdateStatus, hemp]
  | false =>
    cases hct : (taskStatusValues.contains status) with
    | false =>
      have hn : status ∉ taskStatusValues := by simpa using hct
      simp [TasksService.bulkUpdateStatus, hemp, hn]
    | true =>
      have hm : status ∈ taskStatusValues := by simpa using hct
      have htr : (TasksService.bulkUpdateStatus env ids status store).trace
          = [Event.beginTx, Event.rollback, Event.release] := by
        simp [TasksService.bulkUpdateStatus, hemp, hm, hdb]
      rw [htr]
      intro e he
      fin_cases he <;> rfl

theorem create_enq_fail_rb (env : Env) (dto : CreateTaskDto) (newId : String)
    (store : List Task) (er : Option String)
    (hs : env.saveFails = false) (he : retriedEnqueue env = Except.error er) :
    (TasksService.create env dto newId store).outcome = Except.error (Err.queue er) ∧
    Event.commit ∉ (TasksService.create env dto newId store).trace ∧
    Event.rollback ∈ (TasksService.create env dto newId store).trace := by
  simp [TasksService.create, hs, he]

theorem update_enq_fail_rb (env : Env) (id : String) (udto : UpdateTaskDto)
    (store : List Task) (er : Option String)
    (he : retriedEnqueue env = Except.error er)
    (hex : ∃ e ∈ (TasksService.update env id udto store).trace, isEnqueueEvt e = true) :
    (TasksService.update env id udto store).outcome = Except.error (Err.queue er) ∧
    Event.commit ∉ (TasksService.update env id udto store).trace ∧
    Event.rollback ∈ (TasksService.update env id udto store).trace := by
  cases hv : TasksService.statusPatchInvalid udto with
  | true =>
    exfalso
    refine no_enqueue_absurd ?_ hex
    have htr : (TasksService.update env id udto store).trace = [] := by
      simp [TasksService.update, hv]
    rw [htr]
    intro e hm
    simp at hm
  | false =>
    cases hf : store.find? (fun t => t.id == id) with
    | none =>
      exfalso
      refine no_enqueue_absurd ?_ hex
      have htr : (TasksService.update env id udto store).trace
          = [Event.beginTx, Event.rollback, Event.release] := by
        simp [TasksService.update, hv, hf]
      rw [htr]
      intro e hm
      fin_cases hm <;> rfl
    | some task =>
      cases hs : env.saveFails with
      | true =>
        exfalso
        refine no_enqueue_absurd ?_ hex
        have htr : (TasksService.update env id udto store).trace
            = [Event.beginTx, Event.rollback, Event.release] := by
          simp [TasksService.update, hv, hf, hs]
        rw [htr]
        intro e hm
        fin_cases hm <;> rfl
      | false =>
        cases hq : (task.status == (applyPatch task udto).status) with
        | true =>
          exfalso
          refine no_enqueue_absurd ?_ hex
          cases hc : env.commitFails with
          | true =>
            have htr : (TasksService.update env id udto store).trace
                = [Event.beginTx, Event.save (applyPatch task udto),
                    Event.rollback, Event.release] := by
              simp [TasksService.update, hv, hf, hs, hq, hc]
            rw [htr]
            intro e hm
            fin_cases hm <;> rfl
          | false =>
            have htr : (TasksService.update env id udto store).trace
                = [Event.beginTx, Event.save (applyPatch task udto),
                    Event.commit, Event.release] := by
              simp [TasksService.update, hv, hf, hs, hq, hc]
            rw [htr]
            intro e hm
            fin_cases hm <;> rfl
        | false =>
          simp [TasksService.update, hv, hf, hs, hq, he]

theorem bulk_enq_fail_rb (env : Env) (ids : List String) (status : String)
    (store : List Task) (er : Option String)
    (he : retriedEnqueue env = Except.error er)
    (hex : ∃ e ∈ (TasksService.bulkUpdateStatus env ids status store).trace,
      isEnqueueEvt e = true) :
    (TasksService.bulkUpdateStatus env ids status store).outcome
      = Except.error (Err.queue er) ∧
    Event.commit ∉ (TasksService.bulkUpdateStatus env ids status store).trace ∧
    Event.rollback ∈ (TasksService.bulkUpdateStatus env ids status store).trace := by
  cases hemp : ids.isEmpty with
  | true =>
    exfalso
    refine no_enqueue_absurd ?_ hex
    have htr : (TasksService.bulkUpdateStatus env ids status store).trace = [] := by
      simp [TasksService.bulkUpdateStatus, hemp]
    rw [htr]
    intro e hm
    simp at hm
  | false =>
    cases hct : (taskStatusValues.contains status) with
    | false =>
      exfalso
      refine no_enqueue_absurd ?_ hex
      have hn : status ∉ taskStatusValues := by simpa using hct
      have htr : (TasksService.bulkUpdateStatus env ids status store).trace = [] := by
        simp [TasksService.bulkUpdateStatus, hemp, hn]
      rw [htr]
      intro e hm
      simp at hm
    | true =>
      have hmv : status ∈ taskStatusValues := by simpa using hct
      cases hdb : env.dbFails with
      | true =>
        exfalso
        refine no_enqueue_absurd ?_ hex
        have htr : (TasksService.bulkUpdateStatus env ids status store).trace
            = [Event.beginTx, Event.rollback, Event.release] := by
          simp [TasksService.bulkUpdateStatus, hemp, hmv, hdb]
        rw [htr]
        intro e hm
        fin_cases hm <;> rfl
      | false =>
        cases hie : (TasksService.bulkUpdatedTasks ids status store).isEmpty with
        | true =>
          exfalso
          have hUT : TasksService.bulkUpdatedTasks ids status store = [] := by
            cases hl : TasksService.bulkUpdatedTasks ids status store with
            | nil => rfl
            | cons a l => rw [hl] at hie; exact absurd hie (by simp)
          refine no_enqueue_absurd ?_ hex
          cases hc : env.commitFails with
          | true =>
            have htr : (TasksService.bulkUpdateStatus env ids status store).trace
                = [Event.beginTx, Event.dbUpdate ids status,
                    Event.rollback, Event.release] := by
              simp [TasksService.bulkUpdateStatus, hemp, hmv, hdb, hc,
                TasksService.retriedBatchEnqueue, TasksService.bulkEnqueueEvts, hUT]
            rw [htr]
            intro e hm
            fin_cases hm <;> rfl
          | false =>
            have htr : (TasksService.bulkUpdateStatus env ids status store).trace
                = [Event.beginTx, Event.dbUpdate ids status,
                    Event.commit, Event.release] := by
              simp [TasksService.bulkUpdateStatus, hemp, hmv, hdb, hc,
                TasksService.retriedBatchEnqueue, TasksService.bulkEnqueueEvts, hUT]
            rw [htr]
            intro e hm
            fin_cases hm <;> rfl
        | false =>
          have hbe : TasksService.retriedBatchEnqueue env
              (TasksService.bulkUpdatedTasks ids status store)
                = Except.error er := by
            simp [TasksService.retriedBatchEnqueue, hie, he]
          simp [TasksService.bulkUpdateStatus, hemp, hmv, hdb, hbe,
            TasksService.bulkEnqueueEvts]

/-- C1 (amended): within every transactional mutation that fires a
notification (create, update, bulkUpdateStatus), the enqueue attempt
happens inside the transaction — strictly after the store write and
strictly before the commit; if the store write fails no enqueue is
attempted; and in every execution where an enqueue was attempted and the
retried enqueue failed, the transaction is rolled back without committing
and the enqueue error is propagated. -/
theorem tx_enqueue_within_transaction (env : Env) (dto : CreateTaskDto)
    (newId id : String) (udto : UpdateTaskDto) (ids : List String)
    (status : String) (store : List Task) :
    enqueuePrecedesCommit (TasksService.create env dto newId store).trace ∧
    enqueuePrecedesCommit (TasksService.update env id udto store).trace ∧
    enqueuePrecedesCommit (TasksService.bulkUpdateStatus env ids status store).trace ∧
    writePrecedesEnqueue (TasksService.create env dto newId store).trace ∧
    writePrecedesEnqueue (TasksService.update env id udto store).trace ∧
    writePrecedesEnqueue (TasksService.bulkUpdateStatus env ids status store).trace ∧
    (env.saveFails = true →
      (∀ e ∈ (TasksService.create env dto newId store).trace, isEnqueueEvt e = false) ∧
      (∀ e ∈ (TasksService.update env id udto store).trace, isEnqueueEvt e = false)) ∧
    (env.dbFails = true →
      ∀ e ∈ (TasksService.bulkUpdateStatus env ids status store).trace,
        isEnqueueEvt e = false) ∧
    (∀ er, env.saveFails = false → retriedEnqueue env = Except.error er →
      (TasksService.create env dto newId store).outcome = Except.error (Err.queue er) ∧
      Event.commit ∉ (TasksService.create env dto newId store).trace ∧
      Event.rollback ∈ (TasksService.create env dto newId store).trace) ∧
    (∀ er, retriedEnqueue env = Except.error er →
      (∃ e ∈ (TasksService.update env id udto store).trace, isEnqueueEvt e = true) →
      (TasksService.update env id udto store).outcome = Except.error (Err.queue er) ∧
      Event.commit ∉ (TasksService.update env id udto store).trace ∧
      Event.rollback ∈ (TasksService.update env id udto store).trace) ∧
    (∀ er, retriedEnqueue env = Except.error er →
      (∃ e ∈ (TasksService.bulkUpdateStatus env ids status store).trace,
        isEnqueueEvt e = true) →
      (TasksService.bulkUpdateStatus env ids status store).outcome
        = Except.error (Err.queue er) ∧
      Event.commit ∉ (TasksService.bulkUpdateStatus env ids status store).trace ∧
      Event.rollback ∈ (TasksService.bulkUpdateStatus env ids status store).trace) :=
  ⟨create_epc env dto newId store,
   update_epc env id udto store,
   bulk_epc env ids status store,
   create_wpe env dto newId store,
   update_wpe env id udto store,
   bulk_wpe env ids status store,
   fun hs => ⟨create_save_fail_no_enqueue env dto newId store hs,
     update_save_fail_no_enqueue env id udto store hs⟩,
   fun hdb => bulk_db_fail_no_enqueue env ids status store hdb,
   fun er hs he => create_enq_fail_rb env dto newId store er hs he,
   fun er he hex => update_enq_fail_rb env id udto store er he hex,
   fun er he hex => bulk_enq_fail_rb env ids status store er he hex⟩

def envSaveFail : Env := ⟨true, false, false, fun _ => none⟩

def envDbFail : Env := ⟨false, true, false, fun _ => none⟩

theorem tx_enqueue_within_transaction_witness :
    envEnqFail.saveFails = false ∧
    retriedEnqueue envEnqFail = Except.error (some "boom") ∧
    ((TasksService.create envEnqFail dto0 "id1" demoStore).outcome
        = Except.error (Err.queue (some "boom")) ∧
      Event.commit ∉ (TasksService.create envEnqFail dto0 "id1" demoStore).trace ∧
      Event.rollback ∈ (TasksService.create envEnqFail dto0 "id1" demoStore).trace) ∧
    envSaveFail.saveFails = true ∧
    ((∀ e ∈ (TasksService.create envSaveFail dto0 "id1" demoStore).trace,
        isEnqueueEvt e = false) ∧
      (∀ e ∈ (TasksService.update envSaveFail "t1" udtoStatus demoStore).trace,
        isEnqueueEvt e = false)) ∧
    envDbFail.dbFails = true ∧
    (∀ e ∈ (TasksService.bulkUpdateStatus envDbFail ["t1"] "COMPLETED" demoStore).trace,
      isEnqueueEvt e = false) ∧
    (∃ e ∈ (TasksService.update envEnqFail "t1" udtoStatus demoStore).trace,
      isEnqueueEvt e = true) ∧
    ((TasksService.update envEnqFail "t1" udtoStatus demoStore).outcome
        = Except.error (Err.queue (some "boom")) ∧
      Event.commit ∉ (TasksService.update envEnqFail "t1" udtoStatus demoStore).trace ∧
      Event.rollback ∈ (TasksService.update envEnqFail "t1" udtoStatus demoStore).trace) ∧
    (∃ e ∈ (TasksService.bulkUpdateStatus envEnqFail ["t1"] "COMPLETED" demoStore).trace,
      isEnqueueEvt e = true) ∧
    ((TasksService.bulkUpdateStatus envEnqFail ["t1"] "COMPLETED" demoStore).outcome
        = Except.error (Err.queue (some "boom")) ∧
      Event.commit ∉ (TasksService.bulkUpdateStatus envEnqFail ["t1"] "COMPLETED" demoStore).trace ∧
      Event.rollback ∈ (TasksService.bulkUpdateStatus envEnqFail ["t1"] "COMPLETED" demoStore).trace) := by
  obtain ⟨h1, h2, h3, h4, h5, h6, h7, h8, h9, h10, h11⟩ :=
    tx_enqueue_within_transaction envEnqFail dto0 "id1" "t1" udtoStatus
      ["t1"] "COMPLETED" demoStore
  obtain ⟨g1, g2, g3, g4, g5, g6, g7, g8, g9, g10, g11⟩ :=
    tx_enqueue_within_transaction envSaveFail dto0 "id1" "t1" udtoStatus
      ["t1"] "COMPLETED" demoStore
  obtain ⟨f1, f2, f3, f4, f5, f6, f7, f8, f9, f10, f11⟩ :=
    tx_enqueue_within_transaction envDbFail dto0 "id1" "t1" udtoStatus
      ["t1"] "COMPLETED" demoStore
  exact ⟨rfl, rfl, h9 (some "boom") rfl rfl, rfl, g7 rfl, rfl, f8 rfl,
    by decide, h10 (some "boom") rfl (by decide),
    by decide, h11 (some "boom") rfl (by decide)⟩

/-- C2 counterexample: on concrete input the retried enqueue of create
exhausts its 5 attempts and fails, the error is propagated — but the task
row does NOT remain: the transaction is rolled back because the
notification failed, the store is unchanged and no commit occurred. -/
theorem create_enqueue_failure_not_durable_cex :
    (retry (enqueueFn envEnqFail) defaultRetryOptions).calls = 5 ∧
    retriedEnqueue envEnqFail = Except.error (some "boom") ∧
    (TasksService.create envEnqFail dto0 "id1" []).outcome
      = Except.error (Err.queue (some "boom")) ∧
    (TasksService.create envEnqFail dto0 "id1" []).store = [] ∧
    mkTask dto0 "id1" ∉ (TasksService.create envEnqFail dto0 "id1" []).store ∧
    Event.rollback ∈ (TasksService.create envEnqFail dto0 "id1" []).trace ∧
    Event.commit ∉ (TasksService.create envEnqFail dto0 "id1" []).trace :=
  ⟨rfl, rfl, rfl, rfl, by decide, by decide, by decide⟩

/-- C2 (amended): if the retried enqueue fails during create, the error
is propagated to the caller unchanged and the transaction is rolled back
without committing, so the task row does not persist (the store is left
exactly as it was). -/
theorem create_enqueue_failure_rolls_back (env : Env) (dto : CreateTaskDto)
    (newId : String) (store : List Task) (er : Option String)
    (hs : env.saveFails = false) (he : retriedEnqueue env = Except.error er) :
    (TasksService.create env dto newId store).outcome = Except.error (Err.queue er) ∧
    (TasksService.create env dto newId store).store = store ∧
    Event.rollback ∈ (TasksService.create env dto newId store).trace ∧
    Event.commit ∉ (TasksService.create env dto newId store).trace := by
  simp [TasksService.create, hs, he]

theorem create_enqueue_failure_rolls_back_witness :
    envEnqFail.saveFails = false ∧
    retriedEnqueue envEnqFail = Except.error (some "boom") ∧
    ((TasksService.create envEnqFail dto0 "id2" demoStore).outcome
        = Except.error (Err.queue (some "boom")) ∧
      (TasksService.create envEnqFail dto0 "id2" demoStore).store = demoStore ∧
      Event.rollback ∈ (TasksService.create envEnqFail dto0 "id2" demoStore).trace ∧
      Event.commit ∉ (TasksService.create envEnqFail dto0 "id2" demoStore).trace) :=
  ⟨rfl, rfl, create_enqueue_failure_rolls_back envEnqFail dto0 "id2" demoStore
    (some "boom") rfl rfl⟩

end TaskApp
